import Mathlib

/-!
# Verification of `scripts/validate-devcontainers.py`

A shallow embedding of the configuration-validation script.  Python values
parsed from JSON are modelled by `Json`; Python dictionaries become ordered
association lists (parsed JSON never has duplicate keys, and insertion order
is iteration order, as in CPython).  Fallible Python expressions (those that
can raise `TypeError`/`AttributeError`) are modelled with `Option`/`Except`:
`none`/`.error` marks an uncaught exception.
-/

/-- A JSON value, as produced by Python's `json.load`.  Numbers are modelled
as integers (no claim involves non-integral numbers). -/
inductive Json where
  | null
  | bool (b : Bool)
  | num (n : Int)
  | str (s : String)
  | arr (elems : List Json)
  | obj (kvs : List (String × Json))
deriving Repr

/-- `d.find?`-based lookup: Python `d[k]` / `d.get(k)` on a dict with the
first (in a parsed document, the only) binding of `k`. -/
def dictGet (d : List (String × Json)) (k : String) : Option Json :=
  (d.find? (fun p => p.1 == k)).map (fun p => p.2)

/-- Python key membership on a dict: `k in d`. -/
def dictHasKey (d : List (String × Json)) (k : String) : Bool :=
  d.any (fun p => p.1 == k)

/-- `c1` is a prefix of `c2` (character lists). -/
def charsPre : List Char → List Char → Bool
  | [], _ => true
  | _ :: _, [] => false
  | a :: as, b :: bs => a == b && charsPre as bs

/-- `needle` occurs contiguously inside `hay` (character lists). -/
def charsInf (needle : List Char) : List Char → Bool
  | [] => charsPre needle []
  | b :: bs => charsPre needle (b :: bs) || charsInf needle bs

/-- Python substring test `sub in hay` on strings. -/
def strContains (hay sub : String) : Bool :=
  charsInf sub.data hay.data

/-- Python truthiness `bool(x)` of a JSON value. -/
def pyTruthy : Json → Bool
  | .null => false
  | .bool b => b
  | .num n => n != 0
  | .str s => !s.isEmpty
  | .arr xs => !xs.isEmpty
  | .obj kvs => !kvs.isEmpty

/-- Python membership `key in container` for a string key.  On a dict it is
key membership, on a string a substring test, on a list an equality scan
(a string compares equal only to an equal string); on any other value
Python raises `TypeError`, modelled as `none`. -/
def pyContains (container : Json) (key : String) : Option Bool :=
  match container with
  | .obj kvs => some (dictHasKey kvs key)
  | .str s => some (strContains s key)
  | .arr xs => some (xs.any (fun e => match e with | .str t => t == key | _ => false))
  | _ => none

/-- Python subscription `container[key]` with a string key.  Valid only on a
dict holding the key; on anything else (`str`/`list` want integer indices,
scalars are not subscriptable, a missing key is `KeyError`) it raises,
modelled as `none`. -/
def pyGetItemStr (container : Json) (key : String) : Option Json :=
  match container with
  | .obj kvs => dictGet kvs key
  | _ => none

/-- The characters Python's `str.strip()` removes. -/
def pySpace (c : Char) : Bool :=
  c == ' ' || c == '\t' || c == '\n' || c == '\r' || c == '\x0b' || c == '\x0c'

/-- Python `s.strip()`. -/
def pyStrip (s : String) : String :=
  ⟨((s.data.dropWhile pySpace).reverse.dropWhile pySpace).reverse⟩

/-- Python slice `s[:n]`. -/
def pySlice (s : String) (n : Nat) : String :=
  ⟨s.data.take n⟩

/-- Python `repr` of a string, for strings that need no escape sequences
(the only ones the script ever renders): single quotes, or double quotes
when the text holds a single quote but no double quote. -/
def pyReprStr (s : String) : String :=
  if strContains s "\x27" && !strContains s "\"" then "\"" ++ s ++ "\""
  else "\x27" ++ s ++ "\x27"

mutual
/-- Python `repr` of a JSON value. -/
def pyRepr : Json → String
  | .null => "None"
  | .bool true => "True"
  | .bool false => "False"
  | .num n => toString n
  | .str s => pyReprStr s
  | .arr xs => "[" ++ pyReprCommaList xs ++ "]"
  | .obj kvs => "\x7b" ++ pyReprCommaFields kvs ++ "\x7d"

/-- Comma-separated `repr`s of list elements. -/
def pyReprCommaList : List Json → String
  | [] => ""
  | [x] => pyRepr x
  | x :: y :: rest => pyRepr x ++ ", " ++ pyReprCommaList (y :: rest)

/-- Comma-separated `repr`s of dict items. -/
def pyReprCommaFields : List (String × Json) → String
  | [] => ""
  | [(k, v)] => pyReprStr k ++ ": " ++ pyRepr v
  | (k, v) :: e :: rest => pyReprStr k ++ ": " ++ pyRepr v ++ ", " ++ pyReprCommaFields (e :: rest)
end

/-- Python `str()` of a JSON value, as interpolated by an f-string. -/
def pyStr : Json → String
  | .null => "None"
  | .bool true => "True"
  | .bool false => "False"
  | .num n => toString n
  | .str s => s
  | .arr xs => pyRepr (.arr xs)
  | .obj kvs => pyRepr (.obj kvs)

/-- ASCII uppercase of one character. -/
def asciiUpper (c : Char) : Char :=
  if 'a' ≤ c && c ≤ 'z' then Char.ofNat (c.toNat - 32) else c

/-- Python `s.upper()` (ASCII, which is all the script feeds it). -/
def pyUpper (s : String) : String :=
  ⟨s.data.map asciiUpper⟩

/-! ## Deprecated-pattern flattener (`extract_deprecated`, lines 68-86) -/

/-- A flat rule record: the Python dict
`{"name": pattern_name, "category": category_path, **pattern_info}`. -/
abbrev Rule := List (String × Json)

/-- One binding of a dict built by `{k: v, ..., **ext}`: a key of `ext`
overwrites an earlier binding in place, a new key is appended. -/
def dictSet (d : List (String × Json)) (k : String) (v : Json) : List (String × Json) :=
  match d with
  | [] => [(k, v)]
  | (k1, v1) :: rest => if k1 == k then (k, v) :: rest else (k1, v1) :: dictSet rest k v

/-- Python dict merge `{**base, **ext}` (`ext` wins on shared keys). -/
def dictMerge (base ext : List (String × Json)) : List (String × Json) :=
  ext.foldl (fun d p => dictSet d p.1 p.2) base

/-- The record appended for one `deprecatedPatterns` entry:
`{"name": pattern_name, "category": category_path, **pattern_info}`. -/
def mkRule (pattern_name : String) (category_path : String) (pattern_info : List (String × Json)) : Rule :=
  dictMerge [("name", Json.str pattern_name), ("category", Json.str category_path)] pattern_info

/-- The records contributed by one `deprecatedPatterns` dict: one per entry
whose value is itself a dict (`isinstance(pattern_info, dict)`), in entry
order; other entries are skipped. -/
def dpRecords (entries : List (String × Json)) (category_path : String) : List Rule :=
  entries.filterMap (fun e =>
    match e.2 with
    | .obj info => some (mkRule e.1 category_path info)
    | _ => none)

/-- `f"{category_path}.{key}" if category_path else key`. -/
def childPath (category_path key : String) : String :=
  if category_path = "" then key else category_path ++ "." ++ key

mutual
/-- `extract_deprecated` (lines 71-84): recursively flattens a rule tree into
the `all_deprecated` list.  A node that is not a dict contributes nothing.
When a dict node holds `deprecatedPatterns`, Python iterates
`data["deprecatedPatterns"].items()`, which raises if that value is not a
dict (`none` here); descent then continues into every other key in order. -/
def extract_deprecated : Json → String → Option (List Rule)
  | .obj kvs, category_path =>
    match dictGet kvs "deprecatedPatterns" with
    | some (.obj entries) =>
      match extractChildren kvs category_path with
      | some rest => some (dpRecords entries category_path ++ rest)
      | none => none
    | some _ => none
    | none => extractChildren kvs category_path
  | _, _ => some []

/-- The `for key, value in data.items()` loop of `extract_deprecated`:
recurse into every key except `deprecatedPatterns`, extending the dotted
category path. -/
def extractChildren : List (String × Json) → String → Option (List Rule)
  | [], _ => some []
  | (k, v) :: rest, category_path =>
    if k = "deprecatedPatterns" then extractChildren rest category_path
    else
      match extract_deprecated v (childPath category_path k) with
      | some rs =>
        match extractChildren rest category_path with
        | some rs2 => some (rs ++ rs2)
        | none => none
      | none => none
end

/-! ## Deprecated-pattern matcher (`check_deprecated_patterns`, lines 61-117) -/

/-- `deprecated.get(key, default)` on a rule record. -/
def ruleGet (r : Rule) (k : String) (dflt : Json) : Json :=
  (dictGet r k).getD dflt

/-- The message appended for a hit (lines 108-112). -/
def deprecatedMsg (severity : String) (name : Json) (reason : Json) (search : String) (replacement : Json) : String :=
  "[" ++ severity ++ "] Deprecated pattern found: " ++ pyStr name
  ++ (if pyTruthy reason then "\n    Reason: " ++ pyStr reason else "")
  ++ "\n    Found: " ++ pySlice search 80 ++ "..."
  ++ "\n    Replace with: " ++ pyStr replacement

/-- The body of the `for deprecated in all_deprecated` loop (lines 89-115)
for one rule record: the messages it appends (`[]` or one message).
A falsy `pattern` is skipped.  A truthy non-string `pattern` always raises —
at the variant test `"checkOnSave\": true" in pattern` for numbers and
booleans, or at the first `search in content` once `search` is the
non-string pattern itself — modelled as `none`; so does a matched rule
whose `severity` value is not a string (`.upper()`). -/
def processRule (content : String) (r : Rule) : Option (List String) :=
  let pattern := ruleGet r "pattern" (.str "")
  if !pyTruthy pattern then some []
  else
    match pattern with
    | .str p =>
      let search_patterns :=
        if strContains p "checkOnSave\": true" then
          [p, "\"checkOnSave\": true", "\x27checkOnSave\x27: true"]
        else [p]
      match search_patterns.find? (fun search => strContains content search) with
      | none => some []
      | some search =>
        match ruleGet r "severity" (.str "warning") with
        | .str sev =>
          some [deprecatedMsg (pyUpper sev) ((dictGet r "name").getD .null)
                  (ruleGet r "reason" (.str "")) search
                  (ruleGet r "replacement" (.str "See documentation"))]
        | _ => none
    | _ => none

/-- The guard and flattening part of `check_deprecated_patterns` (lines
65-86): `[]` when `intelligence` is falsy or lacks an `"intelligence"`
member, else the flattening of `intelligence.get("intelligence", {})`.
A truthy non-dict `intelligence` raises at the membership test (scalars) or
at `.get` (strings/lists), modelled as `none`. -/
def all_deprecated_of (intelligence : Json) : Option (List Rule) :=
  if !pyTruthy intelligence then some []
  else
    match pyContains intelligence "intelligence" with
    | none => none
    | some false => some []
    | some true =>
      match intelligence with
      | .obj kvs => extract_deprecated ((dictGet kvs "intelligence").getD (.obj [])) ""
      | _ => none

/-- `check_deprecated_patterns` (lines 61-117): the list of messages for one
file's raw `content` under the loaded `intelligence`. -/
def check_deprecated_patterns (content : String) (intelligence : Json) : Option (List String) := do
  let rules ← all_deprecated_of intelligence
  rules.foldlM (fun acc r => do
    let ms ← processRule content r
    pure (acc ++ ms)) []

/-! ## Structural validators (lines 120-237) -/

/-- `REQUIRED_DEVCONTAINER_FIELDS` (line 24). -/
def REQUIRED_DEVCONTAINER_FIELDS : List String := ["name", "image"]

/-- `f"Missing required field: '{field}'"` (line 127). -/
def missingFieldMsg (field : String) : String :=
  "Missing required field: \x27" ++ field ++ "\x27"

/-- Line 132. -/
def nameNonEmptyMsg : String := "Field \x27name\x27 must be a non-empty string"

/-- Line 138. -/
def imageNonEmptyMsg : String := "Field \x27image\x27 must be a non-empty string"

/-- `f"Field 'image' appears to be invalid Docker image format: {image}"`
(line 140); here `image` is already known to be a string. -/
def invalidImageMsg (image : String) : String :=
  "Field \x27image\x27 appears to be invalid Docker image format: " ++ image

/-- Line 146. -/
def customizationsDictMsg : String := "Field \x27customizations\x27 must be a dictionary"

/-- Line 164. -/
def vscodeDictMsg : String := "vscode customization must be a dictionary"

/-- Line 168. -/
def vscodeSettingsDictMsg : String := "vscode.settings must be a dictionary"

/-- The deprecation message of lines 177-180. -/
def checkOnSaveMsg (b : Bool) : String :=
  "[ERROR] DEPRECATED: rust-analyzer.checkOnSave as boolean\n"
  ++ "    Found: \"rust-analyzer.checkOnSave\": " ++ (if b then "true" else "false") ++ "\n"
  ++ "    Replace with: \"rust-analyzer.checkOnSave\": \x7b \"enable\": true, \"command\": \"clippy\" \x7d\n"
  ++ "    Reason: Boolean syntax deprecated since 2023-06-01"

/-- `validate_vscode_settings` (lines 159-191).  The `extensions` check at
lines 184-189 inspects `vscode_config.get("extensions", [])` but appends
nothing and cannot raise, so it contributes no messages.  The function never
raises; `intelligence` is accepted but unused, as in the source. -/
def validate_vscode_settings (vscode_config : Json) (_intelligence : Json) : List String :=
  match vscode_config with
  | .obj kvs =>
    match (dictGet kvs "settings").getD (.obj []) with
    | .obj settings =>
      match dictGet settings "rust-analyzer.checkOnSave" with
      | some (.bool b) => [checkOnSaveMsg b]
      | _ => []
    | _ => [vscodeSettingsDictMsg]
  | _ => [vscodeDictMsg]

/-- `validate_devcontainer_structure` (lines 120-156).  `config` is whatever
`json.load` produced, so the Python membership tests and subscriptions can
raise on non-dict shapes; `none` marks such an uncaught exception.  On a dict
`config` every step is total. -/
def validate_devcontainer_structure (config : Json) (intelligence : Json) : Option (List String) := do
  let errs ← REQUIRED_DEVCONTAINER_FIELDS.foldlM (fun acc field => do
    let m ← pyContains config field
    pure (if m then acc else acc ++ [missingFieldMsg field])) []
  let hasName ← pyContains config "name"
  let errs ←
    if hasName then do
      let v ← pyGetItemStr config "name"
      pure (match v with
        | .str s => if (pyStrip s).isEmpty then errs ++ [nameNonEmptyMsg] else errs
        | _ => errs ++ [nameNonEmptyMsg])
    else pure errs
  let hasImage ← pyContains config "image"
  let errs ←
    if hasImage then do
      let v ← pyGetItemStr config "image"
      pure (match v with
        | .str s =>
          if (pyStrip s).isEmpty then errs ++ [imageNonEmptyMsg]
          else if !strContains s ":" && !strContains s "/" then errs ++ [invalidImageMsg s]
          else errs
        | _ => errs ++ [imageNonEmptyMsg])
    else pure errs
  let hasCust ← pyContains config "customizations"
  if hasCust then do
    let cust ← pyGetItemStr config "customizations"
    match cust with
    | .obj custKvs =>
      if dictHasKey custKvs "vscode" then
        pure (errs ++ validate_vscode_settings ((dictGet custKvs "vscode").getD .null) intelligence)
      else pure errs
    | _ => pure (errs ++ [customizationsDictMsg])
  else pure errs

/-- The Tailwind-3 warning of lines 204-208. -/
def tailwind3Msg : String :=
  "[WARNING] Tailwind 3 configuration detected\n"
  ++ "    Consider migrating to Tailwind 4 CSS-first config\n"
  ++ "    Use @theme \x7b \x7d directive in CSS instead of JS config"

/-- The `purge:` error of lines 211-213. -/
def purgeMsg : String :=
  "[ERROR] Deprecated \x27purge\x27 option found\n"
  ++ "    Replace with: content: [\x27./src/**/*.\x7bjs,jsx,ts,tsx\x7d\x27]"

/-- `f"Error reading Tailwind config: {e}"` (line 217). -/
def tailwindReadErrMsg (e : String) : String :=
  "Error reading Tailwind config: " ++ e

/-- `validate_tailwind_config` (lines 194-219).  The file read sits inside
`try`, so its input is either the exception text (`.inl`) or the file
content (`.inr`); both substring checks run inside the same `try` but
cannot raise on a string. -/
def validate_tailwind_config (file : Sum String String) : List String :=
  match file with
  | .inl e => [tailwindReadErrMsg e]
  | .inr content =>
    (if strContains content "module.exports" && strContains content "theme:" then [tailwind3Msg] else [])
    ++ (if strContains content "purge:" then [purgeMsg] else [])

/-- The legacy-config warning of lines 231-234. -/
def eslintLegacyMsg (filename : String) : String :=
  "[WARNING] Legacy ESLint config format detected: " ++ filename ++ "\n"
  ++ "    ESLint 9+ uses flat config format\n"
  ++ "    Migrate to: eslint.config.js or eslint.config.mjs"

/-- `legacy_files` (line 229). -/
def legacy_files : List String :=
  [".eslintrc", ".eslintrc.js", ".eslintrc.json", ".eslintrc.yaml", ".eslintrc.yml"]

/-- `validate_eslint_config` (lines 222-237): purely filename-based. -/
def validate_eslint_config (filename : String) : List String :=
  if legacy_files.any (fun f => f == filename) then [eslintLegacyMsg filename] else []

/-! ## Rule loader and driver (`load_framework_intelligence`, `main`) -/

/-- The state of the `.framework-intelligence.json` file at load time:
absent, unreadable (any exception at open/read), syntactically invalid JSON
(`json.JSONDecodeError`), or a parsed document. -/
inductive RulesFileState where
  | absent
  | unreadable (e : String)
  | malformed (e : String)
  | loaded (j : Json)

/-- `load_framework_intelligence` (lines 27-46): the returned mapping.  In
every failure case a console warning/error line is printed and the empty
dict is returned; the function never raises. -/
def load_framework_intelligence : RulesFileState → Json
  | .absent => .obj []
  | .unreadable _ => .obj []
  | .malformed _ => .obj []
  | .loaded j => j

/-- The three counters of `main` (lines 297-299). -/
structure Counters where
  validated : Nat
  warnings : Nat
  errors : Nat
deriving Repr, DecidableEq

/-- One discovered devcontainer file, seen through its two independent reads:
`validate_json_file`'s outcome (lines 49-58, every exception caught and
turned into `.error`), and the raw-content re-read of lines 325-326, which
sits in no `try` block, so its failure is an uncaught exception. -/
structure DevFile where
  parseResult : Except String Json
  rawRead : Except String String

/-- The inputs of one `main` invocation: the loaded intelligence and the
discovered files of each kind, in their sorted scan order.  A tailwind file
is its read outcome (`validate_tailwind_config` reads it inside `try`);
an eslint file matters only through its name. -/
structure World where
  intelligence : Json
  devFiles : List DevFile
  tailwindFiles : List (Sum String String)
  eslintFiles : List String

/-- The devcontainer aggregation of lines 332-341: `[ERROR]` and untagged
messages count as errors, `[WARNING]` messages as warnings. -/
def devClassifyStep (c : Counters) (msg : String) : Counters :=
  if strContains msg "[ERROR]" then ⟨c.validated, c.warnings, c.errors + 1⟩
  else if strContains msg "[WARNING]" then ⟨c.validated, c.warnings + 1, c.errors⟩
  else ⟨c.validated, c.warnings, c.errors + 1⟩

/-- The tailwind/eslint aggregation of lines 361-367 and 382-388: `[ERROR]`
messages count as errors, every other message as a warning. -/
def twoWayClassifyStep (c : Counters) (msg : String) : Counters :=
  if strContains msg "[ERROR]" then ⟨c.validated, c.warnings, c.errors + 1⟩
  else ⟨c.validated, c.warnings + 1, c.errors⟩

/-- One iteration of the devcontainer loop (lines 306-344).  A failed
`validate_json_file` is one error and `continue`.  Otherwise structure and
pattern checks run; a `TypeError` inside them, or a failure of the raw
re-read, is an uncaught exception that aborts the whole scan. -/
def devStep (intelligence : Json) (c : Counters) (f : DevFile) : Except String Counters :=
  match f.parseResult with
  | .error _ => .ok ⟨c.validated, c.warnings, c.errors + 1⟩
  | .ok config => do
    let structure_errors ←
      match validate_devcontainer_structure config intelligence with
      | some es => Except.ok es
      | none => Except.error "TypeError"
    let raw_content ← f.rawRead
    let deprecated_errors ←
      match check_deprecated_patterns raw_content intelligence with
      | some es => Except.ok es
      | none => Except.error "TypeError"
    let all_errors := structure_errors ++ deprecated_errors
    if all_errors.isEmpty then pure ⟨c.validated + 1, c.warnings, c.errors⟩
    else pure (all_errors.foldl devClassifyStep c)

/-- One iteration of the tailwind loop (lines 351-370). -/
def tailwindStep (c : Counters) (file : Sum String String) : Counters :=
  let errors := validate_tailwind_config file
  if errors.isEmpty then ⟨c.validated + 1, c.warnings, c.errors⟩
  else errors.foldl twoWayClassifyStep c

/-- One iteration of the eslint loop (lines 377-391). -/
def eslintStep (c : Counters) (filename : String) : Counters :=
  let errors := validate_eslint_config filename
  if errors.isEmpty then ⟨c.validated + 1, c.warnings, c.errors⟩
  else errors.foldl twoWayClassifyStep c

/-- The exit status of lines 402-407. -/
def exitCode (c : Counters) : Nat :=
  if c.errors = 0 then 0 else 1

/-- The aggregation of `main` (lines 280-407): the three counters after all
three per-kind loops, and the process exit status.  `.error` is an uncaught
exception escaping `main` (a crashed process, with no exit decision). -/
def mainRun (w : World) : Except String (Counters × Nat) := do
  let c1 ← w.devFiles.foldlM (devStep w.intelligence) ⟨0, 0, 0⟩
  let c2 := w.tailwindFiles.foldl tailwindStep c1
  let c3 := w.eslintFiles.foldl eslintStep c2
  pure (c3, exitCode c3)

/-! ## Spec-side definitions

These follow the specification's words, to be compared with the embedded
code.  They are used only in claim statements, never to define the code
model above. -/

mutual
/-- Spec-side (spec section 8): "the total number of entries across every
`deprecatedPatterns` map at every nesting depth", descending, as the
flattener does, into every key other than `deprecatedPatterns`. -/
def dpEntryTotal : Json → Nat
  | .obj kvs =>
    (match dictGet kvs "deprecatedPatterns" with
     | some (.obj entries) => entries.length
     | _ => 0) + dpEntryTotalChildren kvs
  | _ => 0

/-- Spec-side: total entries contributed below each child key. -/
def dpEntryTotalChildren : List (String × Json) → Nat
  | [] => 0
  | (k, v) :: rest =>
    (if k = "deprecatedPatterns" then 0 else dpEntryTotal v) + dpEntryTotalChildren rest
end

/-- `true` exactly on dict values (`isinstance(x, dict)`). -/
def Json.isDict : Json → Bool
  | .obj _ => true
  | _ => false

mutual
/-- Spec-side: the number of `deprecatedPatterns` entries, at every nesting
depth, whose value is itself a mapping. -/
def dpDictEntryTotal : Json → Nat
  | .obj kvs =>
    (match dictGet kvs "deprecatedPatterns" with
     | some (.obj entries) => (entries.filter (fun e => e.2.isDict)).length
     | _ => 0) + dpDictEntryTotalChildren kvs
  | _ => 0

/-- Spec-side: dict-valued entries contributed below each child key. -/
def dpDictEntryTotalChildren : List (String × Json) → Nat
  | [] => 0
  | (k, v) :: rest =>
    (if k = "deprecatedPatterns" then 0 else dpDictEntryTotal v) + dpDictEntryTotalChildren rest
end

/-- Spec-side: the `(entry name, dotted ancestor path, entry mapping)`
triples of one `deprecatedPatterns` dict, keeping only mapping-valued
entries. -/
def dpTriples (entries : List (String × Json)) (category_path : String) :
    List (String × String × List (String × Json)) :=
  entries.filterMap (fun e =>
    match e.2 with
    | .obj info => some (e.1, category_path, info)
    | _ => none)

mutual
/-- Spec-side (spec section 4.2): the flat `(name, dotted category path,
entry mapping)` triples of a rule tree, in traversal order: each node's
`deprecatedPatterns` entries first, then the children in key order, each
under the dotted path extended by its key. -/
def specTriples : Json → String → List (String × String × List (String × Json))
  | .obj kvs, category_path =>
    (match dictGet kvs "deprecatedPatterns" with
     | some (.obj entries) => dpTriples entries category_path
     | _ => []) ++ specTriplesChildren kvs category_path
  | _, _ => []

/-- Spec-side: the triples contributed below each child key. -/
def specTriplesChildren : List (String × Json) → String → List (String × String × List (String × Json))
  | [], _ => []
  | (k, v) :: rest, category_path =>
    (if k = "deprecatedPatterns" then [] else specTriples v (childPath category_path k))
    ++ specTriplesChildren rest category_path
end

/-- Builds the rule record a triple describes, by the code's own
construction. -/
def mkRuleT (x : String × String × List (String × Json)) : Rule :=
  mkRule x.1 x.2.1 x.2.2

/-- Spec-side (spec section 8, rules-file-absent example): the devcontainer
loop with zero rule-based findings, per-file messages coming from structural
validation alone; the raw re-read still happens, as the scan still runs. -/
def structOnlyDevStep (c : Counters) (f : DevFile) : Except String Counters :=
  match f.parseResult with
  | .error _ => .ok ⟨c.validated, c.warnings, c.errors + 1⟩
  | .ok config => do
    let structure_errors ←
      match validate_devcontainer_structure config (.obj []) with
      | some es => Except.ok es
      | none => Except.error "TypeError"
    let _ ← f.rawRead
    if structure_errors.isEmpty then pure ⟨c.validated + 1, c.warnings, c.errors⟩
    else pure (structure_errors.foldl devClassifyStep c)

/-- Spec-side: the whole scan with the rule set absent — counters and exit
status produced by the structural validators alone. -/
def struct_only_run (w : World) : Except String (Counters × Nat) := do
  let c1 ← w.devFiles.foldlM structOnlyDevStep ⟨0, 0, 0⟩
  let c2 := w.tailwindFiles.foldl tailwindStep c1
  let c3 := w.eslintFiles.foldl eslintStep c2
  pure (c3, exitCode c3)

/-- Two invocations of the scan over the same unchanged inputs: the rules
file is re-loaded and the tree re-scanned each time. -/
def runTwice (fs : RulesFileState) (dev : List DevFile) (til : List (Sum String String))
    (esl : List String) : Except String (Counters × Nat) × Except String (Counters × Nat) :=
  (mainRun ⟨load_framework_intelligence fs, dev, til, esl⟩,
   mainRun ⟨load_framework_intelligence fs, dev, til, esl⟩)

/-! ## Basic lemmas -/

theorem dictGet_isSome_iff_hasKey (d : List (String × Json)) (k : String) :
    (dictGet d k).isSome = dictHasKey d k := by
  induction d with
  | nil => rfl
  | cons p rest ih =>
    by_cases h : p.1 == k
    · simp [dictGet, dictHasKey, List.find?_cons, h]
    · simp only [dictGet, dictHasKey, List.find?_cons, h, List.any_cons, Bool.false_or] at ih ⊢
      simpa [dictGet, dictHasKey] using ih

theorem charsPre_append (needle hay ext : List Char) :
    charsPre needle hay = true → charsPre needle (hay ++ ext) = true := by
  induction needle generalizing hay with
  | nil => intro _; rfl
  | cons a as ih =>
    intro h
    cases hay with
    | nil => simp [charsPre] at h
    | cons b bs =>
      simp only [charsPre, Bool.and_eq_true] at h ⊢
      exact ⟨h.1, ih bs h.2⟩

theorem charsInf_append (needle hay ext : List Char) :
    charsInf needle hay = true → charsInf needle (hay ++ ext) = true := by
  induction hay with
  | nil =>
    intro h
    simp only [charsInf] at h
    cases needle with
    | nil => cases ext <;> simp [charsInf, charsPre]
    | cons a as => simp [charsPre] at h
  | cons b bs ih =>
    intro h
    simp only [charsInf, Bool.or_eq_true] at h ⊢
    cases h with
    | inl h => exact Or.inl (charsPre_append _ _ _ h)
    | inr h => exact Or.inr (ih h)

theorem strContains_append_left (a b sub : String) :
    strContains a sub = true → strContains (a ++ b) sub = true := by
  intro h
  simpa [strContains] using charsInf_append sub.data a.data b.data h

theorem dpRecords_append (a b : List (String × Json)) (p : String) :
    dpRecords (a ++ b) p = dpRecords a p ++ dpRecords b p := by
  simp [dpRecords, List.filterMap_append]

theorem dpRecords_skip (n : String) (v : Json) (b : List (String × Json)) (p : String)
    (h : v.isDict = false) :
    dpRecords ((n, v) :: b) p = dpRecords b p := by
  cases v <;> simp_all [dpRecords, Json.isDict]

theorem extractChildren_cons_dp (v : Json) (rest : List (String × Json)) (p : String) :
    extractChildren (("deprecatedPatterns", v) :: rest) p = extractChildren rest p := by
  simp [extractChildren]

theorem extract_cons_dp (entries rest : List (String × Json)) (p : String) :
    extract_deprecated (.obj (("deprecatedPatterns", .obj entries) :: rest)) p
      = match extractChildren rest p with
        | some r => some (dpRecords entries p ++ r)
        | none => none := by
  rw [extract_deprecated]
  simp [dictGet, List.find?_cons, extractChildren_cons_dp]

/-- C10: a `deprecatedPatterns` entry whose value is not a mapping produces
no flat rule record and causes no failure: dropping it from the
`deprecatedPatterns` dict of a rule-tree node leaves the flattener's result
(including its success or failure) unchanged, whatever else the node and the
path hold. -/
theorem c10_nondict_entry_inert (pre post : List (String × Json)) (n : String) (v : Json)
    (rest : List (String × Json)) (category_path : String) (h : v.isDict = false) :
    extract_deprecated (.obj (("deprecatedPatterns", .obj (pre ++ (n, v) :: post)) :: rest)) category_path
      = extract_deprecated (.obj (("deprecatedPatterns", .obj (pre ++ post)) :: rest)) category_path := by
  rw [extract_cons_dp, extract_cons_dp, dpRecords_append, dpRecords_append,
    dpRecords_skip n v post category_path h]

/-- C10 witness: a concrete string-valued entry sitting between two
mapping-valued ones changes nothing. -/
theorem c10_witness :
    (Json.str "oops").isDict = false ∧
      extract_deprecated (.obj [("deprecatedPatterns", .obj
          [("good", .obj [("pattern", .str "x")]), ("bad", .str "oops"),
           ("fine", .obj [("pattern", .str "y")])])]) ""
        = extract_deprecated (.obj [("deprecatedPatterns", .obj
            [("good", .obj [("pattern", .str "x")]),
             ("fine", .obj [("pattern", .str "y")])])]) "" :=
  ⟨rfl, c10_nondict_entry_inert [("good", .obj [("pattern", .str "x")])]
    [("fine", .obj [("pattern", .str "y")])] "bad" (.str "oops") [] "" rfl⟩

theorem dpRecords_eq_triples (entries : List (String × Json)) (p : String) :
    dpRecords entries p = (dpTriples entries p).map mkRuleT := by
  induction entries with
  | nil => rfl
  | cons e rest ih =>
    obtain ⟨n, v⟩ := e
    cases v <;> simpa [dpRecords, dpTriples, mkRuleT, List.filterMap_cons] using ih

mutual
theorem extract_eq_spec : ∀ (j : Json) (p : String) (rs : List Rule),
    extract_deprecated j p = some rs → rs = (specTriples j p).map mkRuleT
  | .obj kvs, p, rs, h => by
    rw [extract_deprecated] at h
    cases hdp : dictGet kvs "deprecatedPatterns" with
    | none =>
      rw [hdp] at h
      simpa [specTriples, hdp] using extractChildren_eq_spec kvs p rs h
    | some v =>
      rw [hdp] at h
      cases v with
      | obj entries =>
        cases hch : extractChildren kvs p with
        | none => rw [hch] at h; exact absurd h (by simp)
        | some rest =>
          rw [hch] at h
          have hrs : rs = dpRecords entries p ++ rest := by
            simpa using h.symm
          have hrest := extractChildren_eq_spec kvs p rest hch
          simp [hrs, specTriples, hdp, dpRecords_eq_triples, hrest]
      | null => exact absurd h (by simp)
      | bool b => exact absurd h (by simp)
      | num n => exact absurd h (by simp)
      | str s => exact absurd h (by simp)
      | arr xs => exact absurd h (by simp)
  | .null, p, rs, h => by
    simp only [extract_deprecated, Option.some.injEq] at h
    simp [← h, specTriples]
  | .bool b, p, rs, h => by
    simp only [extract_deprecated, Option.some.injEq] at h
    simp [← h, specTriples]
  | .num n, p, rs, h => by
    simp only [extract_deprecated, Option.some.injEq] at h
    simp [← h, specTriples]
  | .str s, p, rs, h => by
    simp only [extract_deprecated, Option.some.injEq] at h
    simp [← h, specTriples]
  | .arr xs, p, rs, h => by
    simp only [extract_deprecated, Option.some.injEq] at h
    simp [← h, specTriples]

theorem extractChildren_eq_spec : ∀ (kvs : List (String × Json)) (p : String) (rs : List Rule),
    extractChildren kvs p = some rs → rs = (specTriplesChildren kvs p).map mkRuleT
  | [], p, rs, h => by
    simp only [extractChildren, Option.some.injEq] at h
    simp [← h, specTriplesChildren]
  | (k, v) :: rest, p, rs, h => by
    rw [extractChildren] at h
    by_cases hk : k = "deprecatedPatterns"
    · rw [if_pos hk] at h
      simpa [specTriplesChildren, hk] using extractChildren_eq_spec rest p rs h
    · rw [if_neg hk] at h
      cases hv : extract_deprecated v (childPath p k) with
      | none => rw [hv] at h; exact absurd h (by simp)
      | some rs1 =>
        rw [hv] at h
        cases hch : extractChildren rest p with
        | none => rw [hch] at h; exact absurd h (by simp)
        | some rs2 =>
          rw [hch] at h
          have hrs : rs = rs1 ++ rs2 := by simpa using h.symm
          have h1 := extract_eq_spec v (childPath p k) rs1 hv
          have h2 := extractChildren_eq_spec rest p rs2 hch
          simp [hrs, specTriplesChildren, hk, h1, h2]
end

theorem dpTriples_length (entries : List (String × Json)) (p : String) :
    (dpTriples entries p).length = (entries.filter (fun e => e.2.isDict)).length := by
  induction entries with
  | nil => rfl
  | cons e rest ih =>
    obtain ⟨n, v⟩ := e
    cases v <;> simpa [dpTriples, Json.isDict, List.filterMap_cons] using ih

mutual
theorem specTriples_length : ∀ (j : Json) (p : String),
    (specTriples j p).length = dpDictEntryTotal j
  | .obj kvs, p => by
    rw [specTriples, dpDictEntryTotal]
    cases hdp : dictGet kvs "deprecatedPatterns" with
    | none => simpa using specTriplesChildren_length kvs p
    | some v =>
      cases v <;>
        simpa [dpTriples_length] using specTriplesChildren_length kvs p
  | .null, p => rfl
  | .bool b, p => rfl
  | .num n, p => rfl
  | .str s, p => rfl
  | .arr xs, p => rfl

theorem specTriplesChildren_length : ∀ (kvs : List (String × Json)) (p : String),
    (specTriplesChildren kvs p).length = dpDictEntryTotalChildren kvs
  | [], p => rfl
  | (k, v) :: rest, p => by
    rw [specTriplesChildren, dpDictEntryTotalChildren]
    by_cases hk : k = "deprecatedPatterns"
    · simpa [hk] using specTriplesChildren_length rest p
    · simp only [if_neg hk, List.length_append]
      rw [specTriples_length v (childPath p k), specTriplesChildren_length rest p]
end

/-- C2 (amended): when the flattener succeeds, its records are exactly the
code's record construction applied to the spec-side `(entry name, dotted
ancestor path, entry mapping)` triples, and their number equals the number
of `deprecatedPatterns` entries whose value is itself a mapping, at every
nesting depth — not the number of all entries, since non-mapping entries
are skipped. -/
theorem c2_flattener_refines_spec (t : Json) (rs : List Rule)
    (h : extract_deprecated t "" = some rs) :
    rs = (specTriples t "").map mkRuleT ∧ rs.length = dpDictEntryTotal t := by
  have h1 := extract_eq_spec t "" rs h
  exact ⟨h1, by rw [h1, List.length_map, specTriples_length]⟩

/-- C2 counterexample: a rule tree whose single `deprecatedPatterns` map has
one entry with a string value: the total entry count is 1, yet the
flattener produces 0 records. -/
theorem c2_counterexample :
    (extract_deprecated (.obj [("deprecatedPatterns", .obj [("p1", .str "old")])]) "").map List.length
        = some 0
      ∧ dpEntryTotal (.obj [("deprecatedPatterns", .obj [("p1", .str "old")])]) = 1 :=
  ⟨rfl, rfl⟩

/-- A synthetic fixture with `deprecatedPatterns` maps at depths 0, 1 and 3. -/
def c2Tree : Json :=
  .obj [("deprecatedPatterns", .obj [("p0", .obj [("pattern", .str "a")])]),
        ("frameworks", .obj
          [("deprecatedPatterns", .obj [("p1", .obj [("pattern", .str "b")])]),
           ("react", .obj [("hooks", .obj
             [("deprecatedPatterns", .obj [("p3", .obj [("pattern", .str "c")])])])])])]

/-- The flat records of `c2Tree`, with dotted ancestor paths as categories. -/
def c2Rules : List Rule :=
  [[("name", .str "p0"), ("category", .str ""), ("pattern", .str "a")],
   [("name", .str "p1"), ("category", .str "frameworks"), ("pattern", .str "b")],
   [("name", .str "p3"), ("category", .str "frameworks.react.hooks"), ("pattern", .str "c")]]

/-- C2 witness: on the depth-0/1/3 fixture the flattener succeeds, matches
the spec-side triples, and its count equals the mapping-valued entry
total (3). -/
theorem c2_witness :
    extract_deprecated c2Tree "" = some c2Rules
      ∧ (c2Rules = (specTriples c2Tree "").map mkRuleT ∧ c2Rules.length = dpDictEntryTotal c2Tree) :=
  ⟨rfl, c2_flattener_refines_spec c2Tree c2Rules rfl⟩

theorem processRule_length_le_one (content : String) (r : Rule) (l : List String)
    (h : processRule content r = some l) : l.length ≤ 1 := by
  unfold processRule at h
  repeat' split at h
  all_goals simp_all
  all_goals repeat' split at h
  all_goals first
  | (simp only [Option.some.injEq] at h; subst h; simp)
  | simp_all

theorem checkFold_length (content : String) :
    ∀ (rules : List Rule) (acc errs : List String),
      (rules.foldlM (fun acc r => do
          let ms ← processRule content r
          pure (acc ++ ms)) acc : Option (List String)) = some errs →
      errs.length ≤ acc.length + rules.length := by
  intro rules
  induction rules with
  | nil =>
    intro acc errs h
    simp only [List.foldlM_nil, Option.pure_def, Option.some.injEq] at h
    simp [← h]
  | cons r rest ih =>
    intro acc errs h
    simp only [List.foldlM_cons] at h
    cases hp : processRule content r with
    | none => rw [hp] at h; simp at h
    | some ms =>
      rw [hp] at h
      simp only [Option.bind_some, Option.pure_def, Option.bind_eq_bind] at h
      have hrec := ih (acc ++ ms) errs (by simpa using h)
      have hms := processRule_length_le_one content r ms hp
      simp only [List.length_append, List.length_cons] at hrec ⊢
      omega

/-- C1 (amended): within one rule record the matcher stops at the first
variant that occurs in the content and reports at most one finding, but it
then continues with the remaining rules, so one file receives up to one
finding per flattened rule — not at most one finding overall. -/
theorem c1_one_finding_per_rule :
    (∀ (content : String) (r : Rule) (l : List String),
        processRule content r = some l → l.length ≤ 1)
      ∧ ∀ (content : String) (intelligence : Json) (rules : List Rule) (errs : List String),
          all_deprecated_of intelligence = some rules →
          check_deprecated_patterns content intelligence = some errs →
          errs.length ≤ rules.length := by
  refine ⟨processRule_length_le_one, ?_⟩
  intro content intelligence rules errs h1 h2
  unfold check_deprecated_patterns at h2
  rw [h1] at h2
  simpa using checkFold_length content rules [] errs (by simpa using h2)

/-- A rule set with two rules whose patterns both occur in one file. -/
def c1Intel : Json :=
  .obj [("intelligence", .obj [("deprecatedPatterns", .obj
    [("ruleA", .obj [("pattern", .str "foo")]),
     ("ruleB", .obj [("pattern", .str "bar")])])])]

/-- C1 counterexample: on content holding both patterns the matcher reports
two deprecated-pattern findings for the one file, not at most one. -/
theorem c1_counterexample :
    (check_deprecated_patterns "foo bar" c1Intel).map List.length = some 2 := rfl

/-- The two flattened rule records of `c1Intel`. -/
def c1Rules : List Rule :=
  [[("name", .str "ruleA"), ("category", .str ""), ("pattern", .str "foo")],
   [("name", .str "ruleB"), ("category", .str ""), ("pattern", .str "bar")]]

/-- The two findings the matcher reports on `"foo bar"` under `c1Intel`. -/
def c1Msgs : List String :=
  ["[WARNING] Deprecated pattern found: ruleA\n    Found: foo...\n    Replace with: See documentation",
   "[WARNING] Deprecated pattern found: ruleB\n    Found: bar...\n    Replace with: See documentation"]

/-- C1 witness: the per-rule bound instantiated on the two-rule example. -/
theorem c1_witness :
    all_deprecated_of c1Intel = some c1Rules
      ∧ check_deprecated_patterns "foo bar" c1Intel = some c1Msgs
      ∧ c1Msgs.length ≤ c1Rules.length :=
  ⟨rfl, rfl, c1_one_finding_per_rule.2 "foo bar" c1Intel c1Rules c1Msgs rfl rfl⟩

/-- C3 (amended): a validator message containing neither `[ERROR]` nor
`[WARNING]` counts at error level in the devcontainer aggregation, but the
tailwind and eslint aggregations count every message without `[ERROR]` —
marker-less ones included — at warning level. -/
theorem c3_unmarked_default (c : Counters) (msg : String)
    (he : strContains msg "[ERROR]" = false) (hw : strContains msg "[WARNING]" = false) :
    devClassifyStep c msg = ⟨c.validated, c.warnings, c.errors + 1⟩
      ∧ twoWayClassifyStep c msg = ⟨c.validated, c.warnings + 1, c.errors⟩ := by
  unfold devClassifyStep twoWayClassifyStep
  rw [he, hw]
  simp

/-- C3 counterexample: a scan whose only finding is the marker-less tailwind
read-error message ends with one warning, zero errors and exit status 0 —
the message was counted at warning level, not error level. -/
theorem c3_counterexample :
    mainRun ⟨.obj [], [], [.inl "boom"], []⟩ = .ok (⟨0, 1, 0⟩, 0) := rfl

/-- C3 witness: the marker-less message `"Error reading Tailwind config:
boom"` increments the error counter in the devcontainer loop and the
warning counter in the tailwind/eslint loop. -/
theorem c3_witness :
    strContains "Error reading Tailwind config: boom" "[ERROR]" = false
      ∧ strContains "Error reading Tailwind config: boom" "[WARNING]" = false
      ∧ devClassifyStep ⟨0, 0, 0⟩ "Error reading Tailwind config: boom" = ⟨0, 0, 1⟩
      ∧ twoWayClassifyStep ⟨0, 0, 0⟩ "Error reading Tailwind config: boom" = ⟨0, 1, 0⟩ :=
  ⟨rfl, rfl,
   (c3_unmarked_default ⟨0, 0, 0⟩ "Error reading Tailwind config: boom" rfl rfl).1,
   (c3_unmarked_default ⟨0, 0, 0⟩ "Error reading Tailwind config: boom" rfl rfl).2⟩

theorem twoWayClassifyStep_errors_mono (c : Counters) (m : String) :
    c.errors ≤ (twoWayClassifyStep c m).errors := by
  unfold twoWayClassifyStep
  split <;> simp

theorem foldl_twoWay_errors_mono (msgs : List String) :
    ∀ c : Counters, c.errors ≤ (msgs.foldl twoWayClassifyStep c).errors := by
  induction msgs with
  | nil => intro c; simp
  | cons m rest ih =>
    intro c
    exact le_trans (twoWayClassifyStep_errors_mono c m) (ih (twoWayClassifyStep c m))

theorem tailwindStep_errors_mono (c : Counters) (f : Sum String String) :
    c.errors ≤ (tailwindStep c f).errors := by
  simp only [tailwindStep]
  split
  · simp
  · exact foldl_twoWay_errors_mono _ c

theorem eslintStep_errors_mono (c : Counters) (f : String) :
    c.errors ≤ (eslintStep c f).errors := by
  simp only [eslintStep]
  split
  · simp
  · exact foldl_twoWay_errors_mono _ c

theorem foldl_tailwind_errors_mono (l : List (Sum String String)) :
    ∀ c : Counters, c.errors ≤ (l.foldl tailwindStep c).errors := by
  induction l with
  | nil => intro c; simp
  | cons f rest ih =>
    intro c
    exact le_trans (tailwindStep_errors_mono c f) (ih (tailwindStep c f))

theorem foldl_eslint_errors_mono (l : List String) :
    ∀ c : Counters, c.errors ≤ (l.foldl eslintStep c).errors := by
  induction l with
  | nil => intro c; simp
  | cons f rest ih =>
    intro c
    exact le_trans (eslintStep_errors_mono c f) (ih (eslintStep c f))

theorem tailwindStep_purge (c : Counters) (content : String)
    (h : strContains content "purge:" = true) :
    (tailwindStep c (.inr content)).errors = c.errors + 1 := by
  simp only [tailwindStep, validate_tailwind_config]
  rw [h]
  by_cases hm : strContains content "module.exports" && strContains content "theme:"
  · rw [hm]
    simp only [List.foldl, List.isEmpty_cons, twoWayClassifyStep]
    rw [show strContains tailwind3Msg "[ERROR]" = false from rfl,
      show strContains purgeMsg "[ERROR]" = true from rfl]
    simp
  · rw [Bool.not_eq_true] at hm
    rw [hm]
    simp only [List.foldl, List.isEmpty_cons, twoWayClassifyStep, List.nil_append]
    rw [show strContains purgeMsg "[ERROR]" = true from rfl]
    simp

theorem foldl_tailwind_errors_pos (l : List (Sum String String)) :
    ∀ (c : Counters) (content : String), Sum.inr content ∈ l →
      strContains content "purge:" = true →
      1 ≤ (l.foldl tailwindStep c).errors := by
  induction l with
  | nil => intro c content h; cases h
  | cons f rest ih =>
    intro c content hmem hp
    rcases List.mem_cons.mp hmem with heq | hmem2
    · subst heq
      calc 1 ≤ c.errors + 1 := by omega
        _ = (tailwindStep c (.inr content)).errors := (tailwindStep_purge c content hp).symm
        _ ≤ (rest.foldl tailwindStep (tailwindStep c (.inr content))).errors :=
            foldl_tailwind_errors_mono rest _
    · exact ih (tailwindStep c f) content hmem2 hp

theorem mainRun_ok_shape (w : World) (c : Counters) (code : Nat)
    (h : mainRun w = .ok (c, code)) :
    ∃ c1, w.devFiles.foldlM (devStep w.intelligence) ⟨0, 0, 0⟩ = .ok c1
      ∧ c = w.eslintFiles.foldl eslintStep (w.tailwindFiles.foldl tailwindStep c1)
      ∧ code = exitCode c := by
  unfold mainRun at h
  cases hd : w.devFiles.foldlM (devStep w.intelligence) ⟨0, 0, 0⟩ with
  | error e => rw [hd] at h; simp [Except.bind] at h
  | ok c1 =>
    rw [hd] at h
    have h2 : (List.foldl eslintStep (List.foldl tailwindStep c1 w.tailwindFiles) w.eslintFiles,
        exitCode (List.foldl eslintStep (List.foldl tailwindStep c1 w.tailwindFiles) w.eslintFiles))
        = (c, code) := Except.ok.inj h
    have hc := congrArg Prod.fst h2
    have hcode := congrArg Prod.snd h2
    simp only at hc hcode
    exact ⟨c1, rfl, hc.symm, by rw [← hcode, ← hc]⟩

/-- C4: when a scan completes, the exit status is 0 exactly when the error
counter is 0 — it is a function of the error counter alone, so the warning
counter never influences it; tailwind content holding `purge:` yields
exactly one `[ERROR]` finding, and such a file among the scanned tailwind
files forces exit status 1. -/
theorem c4_exit_code (w : World) (c : Counters) (code : Nat)
    (h : mainRun w = .ok (c, code)) :
    (code = if c.errors = 0 then 0 else 1)
      ∧ (∀ content, strContains content "purge:" = true →
          (validate_tailwind_config (.inr content)).countP
            (fun m => strContains m "[ERROR]") = 1)
      ∧ (∀ content, Sum.inr content ∈ w.tailwindFiles →
          strContains content "purge:" = true → code = 1) := by
  obtain ⟨c1, hd, hc, hcode⟩ := mainRun_ok_shape w c code h
  refine ⟨hcode, ?_, ?_⟩
  · intro content hp
    simp only [validate_tailwind_config]
    rw [hp]
    by_cases hm : strContains content "module.exports" && strContains content "theme:"
    · rw [hm]
      simp only [if_true, List.countP_append, List.countP_cons, List.countP_nil]
      rw [show strContains tailwind3Msg "[ERROR]" = false from rfl,
        show strContains purgeMsg "[ERROR]" = true from rfl]
      simp
    · rw [Bool.not_eq_true] at hm
      rw [hm]
      simp [List.countP_cons, show strContains purgeMsg "[ERROR]" = true from rfl]
  · intro content hmem hp
    have h1 : 1 ≤ (w.tailwindFiles.foldl tailwindStep c1).errors :=
      foldl_tailwind_errors_pos w.tailwindFiles c1 content hmem hp
    have h2 := foldl_eslint_errors_mono w.eslintFiles (w.tailwindFiles.foldl tailwindStep c1)
    rw [hcode, hc]
    have hne : ¬ ((w.eslintFiles.foldl eslintStep
        (w.tailwindFiles.foldl tailwindStep c1)).errors = 0) := by omega
    simp [exitCode, hne]

/-- A world whose only file is a tailwind config using `purge:`. -/
def c4World : World := ⟨.obj [], [], [.inr "purge: []"], []⟩

/-- C4 witness: scanning that world ends with one error and exit status 1,
and the purge content carries exactly one `[ERROR]` finding. -/
theorem c4_witness :
    mainRun c4World = .ok (⟨0, 0, 1⟩, 1)
      ∧ ((1 : Nat) = if (Counters.mk 0 0 1).errors = 0 then 0 else 1)
      ∧ (validate_tailwind_config (.inr "purge: []")).countP
          (fun m => strContains m "[ERROR]") = 1
      ∧ (1 : Nat) = 1 :=
  ⟨rfl, (c4_exit_code c4World ⟨0, 0, 1⟩ 1 rfl).1,
   (c4_exit_code c4World ⟨0, 0, 1⟩ 1 rfl).2.1 "purge: []" rfl,
   (c4_exit_code c4World ⟨0, 0, 1⟩ 1 rfl).2.2 "purge: []" (by simp [c4World]) rfl⟩

/-- The missing-required-field messages of lines 125-127, as a block. -/
def devMissingMsgs (kvs : List (String × Json)) : List String :=
  (if dictHasKey kvs "name" then [] else [missingFieldMsg "name"])
    ++ (if dictHasKey kvs "image" then [] else [missingFieldMsg "image"])

/-- The `name`-validation messages of lines 130-132, as a block. -/
def devNameMsgs (kvs : List (String × Json)) : List String :=
  match dictGet kvs "name" with
  | none => []
  | some (.str s) => if (pyStrip s).isEmpty then [nameNonEmptyMsg] else []
  | some _ => [nameNonEmptyMsg]

/-- The `image`-validation messages of lines 135-140, as a block. -/
def devImageMsgs (kvs : List (String × Json)) : List String :=
  match dictGet kvs "image" with
  | none => []
  | some (.str s) =>
    if (pyStrip s).isEmpty then [imageNonEmptyMsg]
    else if !strContains s ":" && !strContains s "/" then [invalidImageMsg s]
    else []
  | some _ => [imageNonEmptyMsg]

/-- The `customizations`-validation messages of lines 143-154, as a block. -/
def devCustMsgs (kvs : List (String × Json)) (intel : Json) : List String :=
  match dictGet kvs "customizations" with
  | none => []
  | some (.obj custKvs) =>
    if dictHasKey custKvs "vscode" then
      validate_vscode_settings ((dictGet custKvs "vscode").getD .null) intel
    else []
  | some _ => [customizationsDictMsg]

set_option maxHeartbeats 1000000 in
theorem validate_obj (kvs : List (String × Json)) (intel : Json) :
    validate_devcontainer_structure (.obj kvs) intel
      = some (devMissingMsgs kvs ++ devNameMsgs kvs ++ devImageMsgs kvs ++ devCustMsgs kvs intel) := by
  unfold validate_devcontainer_structure devMissingMsgs devNameMsgs devImageMsgs devCustMsgs
  simp only [REQUIRED_DEVCONTAINER_FIELDS, List.foldlM_cons, List.foldlM_nil, pyContains,
    pyGetItemStr, Option.bind_eq_bind, Option.some_bind, Option.pure_def]
  rw [show dictHasKey kvs "name" = (dictGet kvs "name").isSome from
      (dictGet_isSome_iff_hasKey kvs "name").symm,
    show dictHasKey kvs "image" = (dictGet kvs "image").isSome from
      (dictGet_isSome_iff_hasKey kvs "image").symm,
    show dictHasKey kvs "customizations" = (dictGet kvs "customizations").isSome from
      (dictGet_isSome_iff_hasKey kvs "customizations").symm]
  cases hn : dictGet kvs "name" <;> cases hi : dictGet kvs "image" <;>
    cases hcu : dictGet kvs "customizations" <;>
    simp only [Option.isSome_none, Option.isSome_some, Bool.false_eq_true, if_false, if_true,
      Option.some_bind, Option.pure_def, List.nil_append, List.append_nil, List.append_assoc]
  all_goals (repeat' split)
  all_goals (try injections)
  all_goals (try subst_vars)
  all_goals (first | (simp; done) | simp_all)

theorem vscode_msgs_cases (vs intel : Json) :
    validate_vscode_settings vs intel = []
      ∨ validate_vscode_settings vs intel = [vscodeDictMsg]
      ∨ validate_vscode_settings vs intel = [vscodeSettingsDictMsg]
      ∨ validate_vscode_settings vs intel = [checkOnSaveMsg true]
      ∨ validate_vscode_settings vs intel = [checkOnSaveMsg false] := by
  unfold validate_vscode_settings
  repeat' split
  all_goals simp
  rename_i b _
  cases b <;> simp

theorem devNameMsgs_cases (kvs : List (String × Json)) :
    devNameMsgs kvs = [] ∨ devNameMsgs kvs = [nameNonEmptyMsg] := by
  unfold devNameMsgs
  repeat' split
  all_goals simp

theorem devImageMsgs_cases (kvs : List (String × Json)) :
    devImageMsgs kvs = [] ∨ devImageMsgs kvs = [imageNonEmptyMsg]
      ∨ ∃ s, devImageMsgs kvs = [invalidImageMsg s] := by
  unfold devImageMsgs
  repeat' split
  all_goals simp

theorem devCustMsgs_cases (kvs : List (String × Json)) (intel : Json) :
    devCustMsgs kvs intel = [] ∨ devCustMsgs kvs intel = [customizationsDictMsg]
      ∨ devCustMsgs kvs intel = [vscodeDictMsg]
      ∨ devCustMsgs kvs intel = [vscodeSettingsDictMsg]
      ∨ devCustMsgs kvs intel = [checkOnSaveMsg true]
      ∨ devCustMsgs kvs intel = [checkOnSaveMsg false] := by
  unfold devCustMsgs
  repeat' split
  any_goals simp
  rename_i ck hq hv
  rcases vscode_msgs_cases ((dictGet ck "vscode").getD Json.null) intel with h | h | h | h | h <;>
    simp [h]

theorem invalidImageMsg_length (s : String) :
    (invalidImageMsg s).length = 57 + s.length := by
  have h57 : ("Field \x27image\x27 appears to be invalid Docker image format: ").length = 57 := rfl
  rw [invalidImageMsg, String.length_append, h57]

theorem invalidImageMsg_ne_of_short (s t : String) (h : t.length < 57) :
    invalidImageMsg s ≠ t := by
  intro he
  have hl := congrArg String.length he
  rw [invalidImageMsg_length] at hl
  omega

theorem count_devMissing (kvs : List (String × Json)) :
    (devMissingMsgs kvs).count (missingFieldMsg "name")
        = (if dictHasKey kvs "name" then 0 else 1)
      ∧ (devMissingMsgs kvs).count (missingFieldMsg "image")
        = (if dictHasKey kvs "image" then 0 else 1) := by
  unfold devMissingMsgs
  by_cases h1 : dictHasKey kvs "name" <;> by_cases h2 : dictHasKey kvs "image" <;>
    simp only [h1, h2, if_true, if_false, Bool.not_eq_true] <;> exact ⟨by decide, by decide⟩

theorem count_devName_missing (kvs : List (String × Json)) (f : String)
    (hf : f = "name" ∨ f = "image") :
    (devNameMsgs kvs).count (missingFieldMsg f) = 0 := by
  rcases devNameMsgs_cases kvs with h | h <;> rw [h]
  · rfl
  · rcases hf with rfl | rfl <;> decide

theorem count_devImage_missing (kvs : List (String × Json)) (f : String)
    (hf : f = "name" ∨ f = "image") :
    (devImageMsgs kvs).count (missingFieldMsg f) = 0 := by
  rcases devImageMsgs_cases kvs with h | h | ⟨s, h⟩ <;> rw [h]
  · rfl
  · rcases hf with rfl | rfl <;> decide
  · have hne : invalidImageMsg s ≠ missingFieldMsg f := by
      rcases hf with rfl | rfl <;> exact invalidImageMsg_ne_of_short _ _ (by decide)
    simp [List.count_cons, hne]

theorem count_devCust_missing (kvs : List (String × Json)) (intel : Json) (f : String)
    (hf : f = "name" ∨ f = "image") :
    (devCustMsgs kvs intel).count (missingFieldMsg f) = 0 := by
  rcases devCustMsgs_cases kvs intel with h | h | h | h | h | h <;> rw [h]
  · rfl
  all_goals (rcases hf with rfl | rfl <;> decide)

/-- C5: on every devcontainer JSON object the structural validator reports
exactly one missing-field message per missing required field (`name`,
`image`), and `{"image": "notanimage"}` yields exactly the two errors:
missing `name` and invalid image format. -/
theorem c5_missing_field_messages :
    (∀ (kvs : List (String × Json)) (intel : Json) (rs : List String),
        validate_devcontainer_structure (.obj kvs) intel = some rs →
          rs.count (missingFieldMsg "name") = (if dictHasKey kvs "name" then 0 else 1)
            ∧ rs.count (missingFieldMsg "image") = (if dictHasKey kvs "image" then 0 else 1))
      ∧ validate_devcontainer_structure (.obj [("image", .str "notanimage")]) (.obj [])
          = some [missingFieldMsg "name", invalidImageMsg "notanimage"] := by
  constructor
  · intro kvs intel rs h
    rw [validate_obj] at h
    have hrs := Option.some.inj h
    subst hrs
    constructor
    · simp only [List.count_append, (count_devMissing kvs).1,
        count_devName_missing kvs "name" (Or.inl rfl),
        count_devImage_missing kvs "name" (Or.inl rfl),
        count_devCust_missing kvs intel "name" (Or.inl rfl)]
      omega
    · simp only [List.count_append, (count_devMissing kvs).2,
        count_devName_missing kvs "image" (Or.inr rfl),
        count_devImage_missing kvs "image" (Or.inr rfl),
        count_devCust_missing kvs intel "image" (Or.inr rfl)]
      omega
  · rfl

/-- C5 witness: the first part instantiated on `{"image": "notanimage"}`:
one missing-`name` message, zero missing-`image` messages. -/
theorem c5_witness :
    validate_devcontainer_structure (.obj [("image", .str "notanimage")]) (.obj [])
        = some [missingFieldMsg "name", invalidImageMsg "notanimage"]
      ∧ [missingFieldMsg "name", invalidImageMsg "notanimage"].count (missingFieldMsg "name")
          = (if dictHasKey [("image", Json.str "notanimage")] "name" then 0 else 1)
      ∧ [missingFieldMsg "name", invalidImageMsg "notanimage"].count (missingFieldMsg "image")
          = (if dictHasKey [("image", Json.str "notanimage")] "image" then 0 else 1) :=
  ⟨rfl, (c5_missing_field_messages.1 [("image", .str "notanimage")] (.obj []) _ rfl).1,
   (c5_missing_field_messages.1 [("image", .str "notanimage")] (.obj []) _ rfl).2⟩

theorem countP_invalid_devMissing (kvs : List (String × Json)) :
    (devMissingMsgs kvs).countP (fun m => strContains m "invalid Docker image format") = 0 := by
  unfold devMissingMsgs
  by_cases h1 : dictHasKey kvs "name" <;> by_cases h2 : dictHasKey kvs "image" <;>
    simp only [h1, h2, if_true, if_false, Bool.not_eq_true] <;> decide

theorem countP_invalid_devName (kvs : List (String × Json)) :
    (devNameMsgs kvs).countP (fun m => strContains m "invalid Docker image format") = 0 := by
  rcases devNameMsgs_cases kvs with h | h <;> rw [h] <;> decide

set_option maxRecDepth 8192 in
theorem countP_invalid_devCust (kvs : List (String × Json)) (intel : Json) :
    (devCustMsgs kvs intel).countP (fun m => strContains m "invalid Docker image format") = 0 := by
  rcases devCustMsgs_cases kvs intel with h | h | h | h | h | h <;> rw [h] <;> decide

theorem invalidImageMsg_contains (s : String) :
    strContains (invalidImageMsg s) "invalid Docker image format" = true :=
  strContains_append_left "Field \x27image\x27 appears to be invalid Docker image format: " s
    "invalid Docker image format" (by decide)

theorem countP_invalid_devImage (kvs : List (String × Json)) (s : String)
    (himg : dictGet kvs "image" = some (.str s))
    (hst : (pyStrip s).isEmpty = false) :
    (devImageMsgs kvs).countP (fun m => strContains m "invalid Docker image format")
      = if strContains s ":" || strContains s "/" then 0 else 1 := by
  unfold devImageMsgs
  rw [himg]
  simp only [hst, Bool.false_eq_true, if_false]
  by_cases hc : strContains s ":" <;> by_cases hd : strContains s "/" <;>
    simp [hc, hd, List.countP_cons, invalidImageMsg_contains s]

/-- C6 (amended): for every devcontainer object whose `image` value is a
string that is non-empty after stripping whitespace, the validator produces
exactly one invalid-image-format message when the string lacks both `:` and
`/`, and none when it contains either; an image that is empty (or whitespace)
instead triggers only the non-empty-string error. -/
theorem c6_invalid_image_format (kvs : List (String × Json)) (intel : Json) (s : String)
    (rs : List String)
    (h : validate_devcontainer_structure (.obj kvs) intel = some rs)
    (himg : dictGet kvs "image" = some (.str s))
    (hst : (pyStrip s).isEmpty = false) :
    rs.countP (fun m => strContains m "invalid Docker image format")
      = if strContains s ":" || strContains s "/" then 0 else 1 := by
  rw [validate_obj] at h
  have hrs := Option.some.inj h
  subst hrs
  simp only [List.countP_append, countP_invalid_devMissing kvs, countP_invalid_devName kvs,
    countP_invalid_devCust kvs intel, countP_invalid_devImage kvs s himg hst]
  omega

/-- C6 counterexample: in `{"name": "x", "image": ""}` the image value lacks
both `:` and `/`, yet the validator produces zero invalid-image-format
messages — it reports the must-be-non-empty error instead. -/
theorem c6_counterexample :
    validate_devcontainer_structure (.obj [("name", .str "x"), ("image", .str "")]) (.obj [])
        = some [imageNonEmptyMsg]
      ∧ strContains "" ":" = false ∧ strContains "" "/" = false
      ∧ [imageNonEmptyMsg].countP (fun m => strContains m "invalid Docker image format") = 0 :=
  ⟨rfl, rfl, rfl, by decide⟩

/-- C6 witness: image `"abc"` (no `:`, no `/`, non-empty) yields exactly one
invalid-image-format message. -/
theorem c6_witness :
    validate_devcontainer_structure (.obj [("name", .str "x"), ("image", .str "abc")]) (.obj [])
        = some [invalidImageMsg "abc"]
      ∧ dictGet [("name", Json.str "x"), ("image", Json.str "abc")] "image" = some (.str "abc")
      ∧ (pyStrip "abc").isEmpty = false
      ∧ [invalidImageMsg "abc"].countP (fun m => strContains m "invalid Docker image format")
          = (if strContains "abc" ":" || strContains "abc" "/" then 0 else 1) :=
  ⟨rfl, rfl, rfl,
   c6_invalid_image_format [("name", .str "x"), ("image", .str "abc")] (.obj []) "abc"
     [invalidImageMsg "abc"] rfl rfl rfl⟩

theorem devStep_ok (intel : Json) (c : Counters) (f : DevFile)
    (H : ∀ config, f.parseResult = Except.ok config →
      (validate_devcontainer_structure config intel).isSome = true
        ∧ ∃ raw, f.rawRead = Except.ok raw
            ∧ (check_deprecated_patterns raw intel).isSome = true) :
    ∃ c2, devStep intel c f = .ok c2 := by
  unfold devStep
  cases hp : f.parseResult with
  | error e => exact ⟨_, rfl⟩
  | ok config =>
    obtain ⟨h1, raw, hraw, h2⟩ := H config hp
    obtain ⟨es, hes⟩ := Option.isSome_iff_exists.mp h1
    obtain ⟨ds, hds⟩ := Option.isSome_iff_exists.mp h2
    simp only [hes, hraw]
    show ∃ c2, (match check_deprecated_patterns raw intel with
        | some ds2 =>
          if (es ++ ds2).isEmpty = true
          then Except.ok (⟨c.validated + 1, c.warnings, c.errors⟩ : Counters)
          else Except.ok ((es ++ ds2).foldl devClassifyStep c)
        | none => Except.error "TypeError") = Except.ok c2
    rw [hds]
    cases hie : (es ++ ds).isEmpty <;> simp [hie]

theorem devFold_ok (intel : Json) :
    ∀ (l : List DevFile) (c : Counters),
      (∀ f ∈ l, ∀ config, f.parseResult = Except.ok config →
        (validate_devcontainer_structure config intel).isSome = true
          ∧ ∃ raw, f.rawRead = Except.ok raw
              ∧ (check_deprecated_patterns raw intel).isSome = true) →
      ∃ c1, l.foldlM (devStep intel) c = .ok c1 := by
  intro l
  induction l with
  | nil => intro c H; exact ⟨c, rfl⟩
  | cons f rest ih =>
    intro c H
    obtain ⟨c2, hc2⟩ := devStep_ok intel c f (H f (by simp))
    obtain ⟨c1, hc1⟩ := ih c2 (fun g hg => H g (by simp [hg]))
    exact ⟨c1, by rw [List.foldlM_cons, hc2]; simpa [Except.bind] using hc1⟩

/-- C7 (amended): read failures are caught for the initial parse of each
devcontainer file and for every tailwind read (those worlds still scan to
completion, whatever read errors they hold), but the raw-content re-read of
a parsed devcontainer file happens outside any `try`: the scan completes
exactly under the stated hypotheses, which demand nothing of parse-failed
devcontainer files, tailwind files or eslint files, but do require every
parsed devcontainer file's re-read to succeed. -/
theorem c7_read_error_handling (w : World)
    (H : ∀ f ∈ w.devFiles, ∀ config, f.parseResult = Except.ok config →
      (validate_devcontainer_structure config w.intelligence).isSome = true
        ∧ ∃ raw, f.rawRead = Except.ok raw
            ∧ (check_deprecated_patterns raw w.intelligence).isSome = true) :
    ∃ r, mainRun w = .ok r := by
  obtain ⟨c1, hc1⟩ := devFold_ok w.intelligence w.devFiles ⟨0, 0, 0⟩ H
  exact ⟨_, by unfold mainRun; rw [hc1]; rfl⟩

/-- C7 counterexample: a devcontainer file that parses fine but whose raw
re-read (line 325, outside any `try`) fails terminates the whole scan with
an uncaught exception instead of a per-file message. -/
theorem c7_counterexample :
    mainRun ⟨.obj [],
        [⟨.ok (.obj [("name", .str "x"), ("image", .str "u:1")]), .error "disk gone"⟩], [], []⟩
      = .error "disk gone" := rfl

/-- C7 witness: a world with one healthy devcontainer file, one devcontainer
file whose first read already fails, and one unreadable tailwind config
still completes its scan. -/
theorem c7_witness :
    ∃ r, mainRun ⟨.obj [],
        [⟨.ok (.obj [("name", .str "x"), ("image", .str "u:1")]), .ok "x"⟩,
         ⟨.error "bad json", .error "unreadable"⟩],
        [.inl "boom"], []⟩ = .ok r := by
  apply c7_read_error_handling
  intro f hf config hcfg
  rcases List.mem_cons.mp hf with rfl | hf2
  · have h := Except.ok.inj hcfg
    subst h
    exact ⟨rfl, "x", rfl, rfl⟩
  · rcases List.mem_cons.mp hf2 with rfl | hf3
    · exact absurd hcfg (by simp)
    · cases hf3

theorem devStep_empty_intel (c : Counters) (f : DevFile) :
    devStep (.obj []) c f = structOnlyDevStep c f := by
  obtain ⟨pr, rr⟩ := f
  cases pr with
  | error e => rfl
  | ok config =>
    simp only [devStep, structOnlyDevStep]
    cases validate_devcontainer_structure config (Json.obj []) with
    | none => rfl
    | some es =>
      cases rr with
      | error e => rfl
      | ok raw =>
        exact congrArg (fun l : List String =>
          if l.isEmpty = true
          then (Except.ok (⟨c.validated + 1, c.warnings, c.errors⟩ : Counters) : Except String Counters)
          else Except.ok (l.foldl devClassifyStep c)) (List.append_nil es)

theorem mainRun_empty_intel (w : World) :
    mainRun ⟨.obj [], w.devFiles, w.tailwindFiles, w.eslintFiles⟩ = struct_only_run w := by
  have hfold : ∀ (l : List DevFile) (c : Counters),
      l.foldlM (devStep (.obj [])) c = l.foldlM structOnlyDevStep c := by
    intro l
    induction l with
    | nil => intro c; rfl
    | cons f rest ih =>
      intro c
      rw [List.foldlM_cons, List.foldlM_cons, devStep_empty_intel]
      cases structOnlyDevStep c f with
      | error e => rfl
      | ok c2 =>
        show rest.foldlM (devStep (.obj [])) c2 = rest.foldlM structOnlyDevStep c2
        exact ih c2
  unfold mainRun struct_only_run
  rw [hfold]

/-- C8: an absent or malformed rules file degrades to the empty mapping (the
loader never raises); with the empty mapping the deprecated-pattern matcher
returns zero findings on every content; and the whole scan then computes
exactly what the struct-only scan computes, so counters and exit status are
determined purely by the structural validators. -/
theorem c8_missing_rules_degrade :
    load_framework_intelligence .absent = .obj []
      ∧ (∀ e, load_framework_intelligence (.malformed e) = .obj [])
      ∧ (∀ content, check_deprecated_patterns content (.obj []) = some [])
      ∧ (∀ w : World,
          mainRun ⟨.obj [], w.devFiles, w.tailwindFiles, w.eslintFiles⟩ = struct_only_run w) :=
  ⟨rfl, fun _ => rfl, fun _ => rfl, mainRun_empty_intel⟩

/-- C9: the scan is a pure function of its inputs: running the full scan
(rules file re-loaded, tree re-scanned) twice over the same unchanged rules
file and file tree returns identical counters and exit status. -/
theorem c9_scan_idempotent (fs : RulesFileState) (dev : List DevFile)
    (til : List (Sum String String)) (esl : List String) :
    (runTwice fs dev til esl).1 = (runTwice fs dev til esl).2 := rfl
